import Mathlib

/-!
Shallow embedding of the chat backend (`src/main.py`, `src/database.py`).

The embedding models:
* the in-memory connection registry `ConnectionManager`
  (`active_connections : dict[str, List[WebSocket]]` with `connect`,
  `disconnect`, `broadcast_to_room`, `_safe_send`);
* MongoDB `ObjectId` parsing as done by `oid` (a 24-hex-digit string,
  case-insensitive; malformed strings raise HTTP 400);
* the document store operations of `database.py` (`create_document`,
  `update_document`) specialised to the `chatroom` and `message`
  collections, with timestamps drawn from a logical clock and `_id`s
  from a fresh-id counter (ObjectIds are unique and freshly generated);
* the endpoints `send_message`, `create_direct_chat` and `get_messages`.

Websocket handles are identified by process-local identifiers (`Conn`).
Python `dict` iteration/insertion order is modelled by an association
list with unique keys; `dict.setdefault(k, []).append(v)` and in-place
list mutation are modelled by the corresponding functional updates.
Fire-and-forget task spawning in `broadcast_to_room` is modelled by
the list of delivery attempts performed, each paired with its outcome
under a per-connection failure oracle; `_safe_send` swallows the
outcome (`except Exception: pass`), so the outcome never flows back
into any state or result.
-/

deriving instance DecidableEq for Except

namespace ChatMind

/-- A process-local identifier for one live websocket connection. -/
abbrev Conn := Nat

/-- The `active_connections` dictionary: room id to list of connections,
in insertion order, as a `dict[str, List[WebSocket]]`. -/
abbrev Registry := List (String × List Conn)

namespace ConnectionManager

/-- The subscriber list currently stored for a room:
`self.active_connections.get(room_id, [])`. -/
def roomConns (reg : Registry) (roomId : String) : List Conn :=
  match reg.find? (fun e => e.1 == roomId) with
  | some e => e.2
  | none => []

/-- Whether the dictionary has an entry for the room (`room_id in self.active_connections`). -/
def hasRoom (reg : Registry) (roomId : String) : Bool :=
  reg.any (fun e => e.1 == roomId)

/-- `connect` (after the transport `accept`):
`self.active_connections.setdefault(room_id, []).append(websocket)`. -/
def connect (reg : Registry) (roomId : String) (ws : Conn) : Registry :=
  if hasRoom reg roomId then
    reg.map (fun e => if e.1 == roomId then (e.1, e.2 ++ [ws]) else e)
  else
    reg ++ [(roomId, [ws])]

/-- `disconnect`: fetch `conns = active_connections.get(room_id, [])`; remove the
first occurrence of `websocket` if present (`if websocket in conns: conns.remove(websocket)`,
an in-place mutation of the stored list); then `if not conns and room_id in
self.active_connections: del self.active_connections[room_id]`. -/
def disconnect (reg : Registry) (roomId : String) (ws : Conn) : Registry :=
  match reg.find? (fun e => e.1 == roomId) with
  | none => reg
  | some e =>
    let conns := e.2.erase ws
    if conns.isEmpty then
      reg.filter (fun e => e.1 != roomId)
    else
      reg.map (fun e => if e.1 == roomId then (e.1, conns) else e)

/-- The snapshot `conns = list(self.active_connections.get(room_id, []))`
taken at the start of `broadcast_to_room`. -/
def subscribersSnapshot (reg : Registry) (roomId : String) : List Conn :=
  roomConns reg roomId

/-- `broadcast_to_room`: for each connection in the snapshot, spawn one
`_safe_send(ws, data)` task.  Modelled as the list of delivery attempts
performed, in snapshot order: each attempt records the target connection,
the payload handed to it, and whether the transport write succeeded
(`!fails ws`).  `_safe_send` catches every exception, so no outcome is
propagated and no state is touched. -/
def broadcast_to_room {α : Type} (reg : Registry) (roomId : String) (data : α)
    (fails : Conn → Bool) : List (Conn × α × Bool) :=
  (subscribersSnapshot reg roomId).map (fun ws => (ws, data, !fails ws))

/-- Registry states reachable from the empty dictionary by the exported
mutating operations of `ConnectionManager`. -/
inductive Reachable : Registry → Prop where
  | empty : Reachable []
  | step_connect {reg roomId ws} : Reachable reg → Reachable (connect reg roomId ws)
  | step_disconnect {reg roomId ws} : Reachable reg → Reachable (disconnect reg roomId ws)

end ConnectionManager

/-! ObjectId handling (`oid` in `main.py`).  `ObjectId(id_str)` accepts
exactly the 24-character hexadecimal strings (case-insensitive) and
compares by the 12 bytes they denote; `str(ObjectId)` renders lowercase
hex.  We model an ObjectId by its numeric value. -/

/-- Characters accepted by the hexadecimal ObjectId representation. -/
def isHexChar (c : Char) : Bool :=
  c.isDigit || ('a' ≤ c && c ≤ 'f') || ('A' ≤ c && c ≤ 'F')

/-- Numeric value of one hexadecimal character (case-insensitive). -/
def hexDigitVal (c : Char) : Nat :=
  if c.isDigit then c.toNat - 48
  else if 'a' ≤ c && c ≤ 'f' then c.toNat - 87
  else c.toNat - 55

/-- Numeric value of a hexadecimal string. -/
def hexValue (s : String) : Nat :=
  s.data.foldl (fun acc c => acc * 16 + hexDigitVal c) 0

/-- `ObjectId(id_str)` as a partial function: defined exactly on valid
24-hex-digit strings, where it yields the denoted value. -/
def oidOfString (s : String) : Option Nat :=
  if s.data.length == 24 && s.data.all isHexChar then some (hexValue s) else none

/-- One hexadecimal digit character (lowercase). -/
def hexChar (n : Nat) : Char :=
  if n < 10 then Char.ofNat (48 + n) else Char.ofNat (87 + n)

/-- Fixed-width lowercase hexadecimal rendering, most significant digit first. -/
def natToHexAux : Nat → Nat → List Char
  | 0, _ => []
  | k + 1, v => natToHexAux k (v / 16) ++ [hexChar (v % 16)]

/-- `str(object_id)`: the 24-digit lowercase hexadecimal rendering. -/
def stringOfOid (n : Nat) : String :=
  ⟨natToHexAux 24 n⟩

/-- A raised `HTTPException` (status code and detail string). -/
structure HTTPError where
  status : Nat
  detail : String
  deriving DecidableEq

/-- `oid(id_str)`: parse or raise `HTTPException(400, "Invalid id")`. -/
def oid (s : String) : Except HTTPError Nat :=
  match oidOfString s with
  | some n => .ok n
  | none => .error ⟨400, "Invalid id"⟩

/-! Document model for the `chatroom` and `message` collections. -/

/-- A document of the `chatroom` collection (fields written by
`create_direct_chat` / `create_group_chat`, plus the store's stamps). -/
structure RoomDoc where
  _id : Nat
  name : Option String
  type : String
  members : List String
  admins : List String
  created_at : Nat
  updated_at : Nat
  deriving DecidableEq

/-- A document of the `message` collection (fields written by
`send_message`, plus the store's stamps). -/
structure MsgDoc where
  _id : Nat
  room_id : String
  sender_id : String
  content : String
  type : String
  created_at : Nat
  updated_at : Nat
  deriving DecidableEq

/-- The observable server state: the two persistent collections in
insertion order, the in-memory registry, the fresh-ObjectId counter and
the logical clock supplying `datetime.utcnow()` stamps. -/
structure AppState where
  chatrooms : List RoomDoc
  messages : List MsgDoc
  registry : Registry
  nextId : Nat
  clock : Nat
  deriving DecidableEq

/-- Body of `POST /messages`. -/
structure SendMessageRequest where
  room_id : String
  sender_id : String
  content : String
  deriving DecidableEq

/-- The wire envelope broadcast by `send_message`:
`{"type": "message", "payload": {id, room_id, sender_id, content}}`. -/
structure WireMessage where
  type : String
  id : String
  room_id : String
  sender_id : String
  content : String
  deriving DecidableEq

/-- Observable steps taken by one `send_message` call, in program order:
the message document was inserted (`create_document("message", ...)`
returned the given id), the room's `updated_at` stamp was touched,
`broadcast_to_room` was entered for the room, and one delivery attempt
was spawned for a connection (with its payload and transport outcome). -/
inductive Event where
  | persisted (msgId : String)
  | roomTouched
  | fanout (roomId : String)
  | attempt (ws : Conn) (data : WireMessage) (delivered : Bool)
  deriving DecidableEq

/-- `create_document("message", {...})` from `database.py`: stamp
`created_at = updated_at = now`, insert, return `str(inserted_id)`.
The generated `_id` is the fresh-counter value and the stamp is the
current logical clock; both advance. -/
def createMessageDoc (st : AppState) (room_id sender_id content : String) :
    String × AppState :=
  let m : MsgDoc :=
    ⟨st.nextId, room_id, sender_id, content, "text", st.clock, st.clock⟩
  (stringOfOid st.nextId,
    { st with
      messages := st.messages ++ [m]
      nextId := st.nextId + 1
      clock := st.clock + 1 })

/-- `update_one(filter, {"$set": {"updated_at": now}})` on the `chatroom`
collection with filter `{"_id": rid}` and an otherwise empty patch:
the first matching document gets `updated_at := t`; nothing else changes. -/
def touchChatroomFirst (l : List RoomDoc) (rid : Nat) (t : Nat) : List RoomDoc :=
  match l with
  | [] => []
  | r :: rs =>
    if r._id == rid then { r with updated_at := t } :: rs
    else r :: touchChatroomFirst rs rid t

/-- `update_document("chatroom", {"_id": rid}, {})` from `database.py`:
the empty patch plus the stamped `updated_at` timestamp. -/
def updateChatroomStamp (st : AppState) (rid : Nat) : AppState :=
  { st with
    chatrooms := touchChatroomFirst st.chatrooms rid st.clock
    clock := st.clock + 1 }

/-- `POST /messages` (`send_message`): parse the room id (`oid`), check the
room exists (`db.chatroom.find_one({"_id": oid(...)})`), persist the message,
touch the room's `updated_at`, then fan out over the registry.

The result triple is: the HTTP outcome (`message_id` or the raised
exception), the server state at exit, and the trace of observable events.
`insertFails` and `updateFails` model the two document-store writes
raising (e.g. the database being unavailable); a raised store error
propagates out of the endpoint uncaught.  `fails` is the per-connection
transport failure oracle consumed by `_safe_send`. -/
def send_message (st : AppState) (p : SendMessageRequest)
    (insertFails updateFails : Bool) (fails : Conn → Bool) :
    Except HTTPError String × AppState × List Event :=
  match oidOfString p.room_id with
  | none => (.error ⟨400, "Invalid id"⟩, st, [])
  | some rid =>
    match st.chatrooms.find? (fun r => r._id == rid) with
    | none => (.error ⟨404, "Room not found"⟩, st, [])
    | some _ =>
      if insertFails then (.error ⟨500, "message insert failed"⟩, st, [])
      else
        let res := createMessageDoc st p.room_id p.sender_id p.content
        let msgId := res.1
        let st1 := res.2
        if updateFails then
          (.error ⟨500, "room update failed"⟩, st1, [.persisted msgId])
        else
          let st2 := updateChatroomStamp st1 rid
          let wire : WireMessage :=
            ⟨"message", msgId, p.room_id, p.sender_id, p.content⟩
          let atts :=
            ConnectionManager.broadcast_to_room st2.registry p.room_id wire fails
          (.ok msgId, st2,
            [.persisted msgId, .roomTouched, .fanout p.room_id] ++
              atts.map (fun a => .attempt a.1 a.2.1 a.2.2))

/-- The membership test of the Mongo filter
`{"type": "direct", "members": {"$all": [uid1, uid2]}}`. -/
def directRoomMatch (uid1 uid2 : String) (r : RoomDoc) : Bool :=
  r.type == "direct" && (r.members.contains uid1 && r.members.contains uid2)

/-- `POST /chats/direct` (`create_direct_chat`): reject self-chat with
HTTP 400; otherwise look up an existing direct room containing both
members (`find_one`, first match in collection order) and return its id,
or insert a fresh direct room `{name: None, type: "direct", members:
[uid1, uid2], admins: []}` via `create_document`.  Documents inserted by
this backend never carry an `"__id"` key, so the source's
`existing["__id"] if "__id" in existing else existing["_id"]` always
takes the `_id` branch, which is what the model returns. -/
def create_direct_chat (st : AppState) (uid1 uid2 : String) :
    Except HTTPError (String × AppState) :=
  if uid1 == uid2 then .error ⟨400, "Cannot create chat with self"⟩
  else
    match st.chatrooms.find? (directRoomMatch uid1 uid2) with
    | some existing => .ok (stringOfOid existing._id, st)
    | none =>
      let room : RoomDoc :=
        ⟨st.nextId, none, "direct", [uid1, uid2], [], st.clock, st.clock⟩
      .ok (stringOfOid st.nextId,
        { st with
          chatrooms := st.chatrooms ++ [room]
          nextId := st.nextId + 1
          clock := st.clock + 1 })

/-- Recency order on message documents: `a` sorts before `b` under the
descending `created_at` sort `.sort("created_at", -1)`. -/
def moreRecent (a b : MsgDoc) : Prop :=
  b.created_at ≤ a.created_at

instance : DecidableRel moreRecent := fun a b => Nat.decLe b.created_at a.created_at

instance : IsTotal MsgDoc moreRecent :=
  ⟨fun a b => (Nat.le_total b.created_at a.created_at).imp id id⟩

instance : IsTrans MsgDoc moreRecent :=
  ⟨fun _ _ _ h h' => Nat.le_trans h' h⟩

/-- Number of documents a PyMongo cursor yields under `Cursor.limit(k)` when
`available` documents match the query: a positive `k` caps the result at `k`,
`limit(0)` means no limit at all, and a negative `k` is a hard limit of `|k|`
documents. -/
def mongoLimitCount (k : Int) (available : Nat) : Nat :=
  if k = 0 then available else k.natAbs

/-- `GET /messages/{room_id}` (`get_messages`): filter the `message`
collection by `room_id`, sort by `created_at` descending, apply
`Cursor.limit(min(limit, 200))` — with PyMongo's semantics, where a limit of
`0` disables the cap entirely and a negative limit yields `|limit|`
documents — and return the result reversed (ascending).  The query
parameter `limit: int` admits zero and negative values. -/
def get_messages (msgs : List MsgDoc) (room_id : String) (limit : Int) :
    List MsgDoc :=
  let filtered := msgs.filter (fun m => m.room_id == room_id)
  let sorted := filtered.insertionSort moreRecent
  (sorted.take (mongoLimitCount (min limit 200) sorted.length)).reverse

/-! Registry lemmas. -/

namespace ConnectionManager

theorem roomConns_nil (roomId : String) : roomConns [] roomId = [] := rfl

theorem roomConns_cons_self {e : String × List Conn} {rest : Registry} {roomId : String}
    (h : (e.1 == roomId) = true) : roomConns (e :: rest) roomId = e.2 := by
  simp [roomConns, List.find?, h]

theorem roomConns_cons_ne {e : String × List Conn} {rest : Registry} {roomId : String}
    (h : (e.1 == roomId) = false) : roomConns (e :: rest) roomId = roomConns rest roomId := by
  simp [roomConns, List.find?, h]

theorem connect_of_hasRoom {reg : Registry} {roomId : String} (ws : Conn)
    (h : hasRoom reg roomId = true) :
    connect reg roomId ws =
      reg.map (fun e => if e.1 == roomId then (e.1, e.2 ++ [ws]) else e) := by
  simp [connect, h]

theorem connect_of_not_hasRoom {reg : Registry} {roomId : String} (ws : Conn)
    (h : hasRoom reg roomId = false) :
    connect reg roomId ws = reg ++ [(roomId, [ws])] := by
  simp [connect, h]

end ConnectionManager

/-- C5 counterexample: subscribing the connection `0` to room `"r1"` twice is
not a no-op — the registry goes from `[("r1", [0])]` to `[("r1", [0, 0])]`,
so the second `connect` changes the subscriber list of the room. -/
theorem connect_not_idempotent_cex :
    ConnectionManager.connect (ConnectionManager.connect [] "r1" 0) "r1" 0 ≠
      ConnectionManager.connect [] "r1" 0 ∧
    ConnectionManager.roomConns
      (ConnectionManager.connect (ConnectionManager.connect [] "r1" 0) "r1" 0) "r1" = [0, 0] := by
  decide

/-- C5 (amended): `connect` is not idempotent; it unconditionally appends the
websocket to the room's subscriber list (`setdefault(room_id, []).append(ws)`),
so subscribing an already-subscribed handle adds a second occurrence of it. -/
theorem connect_appends (reg : Registry) (roomId : String) (ws : Conn) :
    ConnectionManager.roomConns (ConnectionManager.connect reg roomId ws) roomId =
      ConnectionManager.roomConns reg roomId ++ [ws] := by
  induction reg with
  | nil =>
    simp [ConnectionManager.connect, ConnectionManager.hasRoom,
      ConnectionManager.roomConns, List.find?]
  | cons e rest ih =>
    by_cases he : (e.1 == roomId) = true
    · rw [ConnectionManager.connect_of_hasRoom ws
        (by simp [ConnectionManager.hasRoom, List.any_cons, he])]
      rw [List.map_cons, if_pos he]
      rw [ConnectionManager.roomConns_cons_self (by simpa using he),
        ConnectionManager.roomConns_cons_self he]
    · have he' : (e.1 == roomId) = false := by simpa using he
      by_cases hr : ConnectionManager.hasRoom rest roomId = true
      · rw [ConnectionManager.connect_of_hasRoom ws
          (by simp [ConnectionManager.hasRoom, List.any_cons, he']
              simpa [ConnectionManager.hasRoom] using hr)]
        rw [List.map_cons, if_neg (by simp [he'])]
        rw [ConnectionManager.roomConns_cons_ne he', ConnectionManager.roomConns_cons_ne he']
        rw [← ConnectionManager.connect_of_hasRoom ws hr]
        exact ih
      · have hr' : ConnectionManager.hasRoom rest roomId = false := by simpa using hr
        rw [ConnectionManager.connect_of_not_hasRoom ws
          (by simp [ConnectionManager.hasRoom, List.any_cons, he']
              simpa [ConnectionManager.hasRoom] using hr')]
        rw [List.cons_append]
        rw [ConnectionManager.roomConns_cons_ne he', ConnectionManager.roomConns_cons_ne he']
        rw [← ConnectionManager.connect_of_not_hasRoom ws hr']
        exact ih

/-- Every subscriber list stored by `connect` is nonempty, provided this was
already true before the call: appended lists end in the new websocket and a
fresh entry holds the one-element list. -/
theorem connect_values_nonempty {reg : Registry} (roomId : String) (ws : Conn)
    (h : ∀ e ∈ reg, e.2 ≠ []) :
    ∀ e ∈ ConnectionManager.connect reg roomId ws, e.2 ≠ [] := by
  intro e he
  unfold ConnectionManager.connect at he
  by_cases hr : ConnectionManager.hasRoom reg roomId = true
  · rw [if_pos hr] at he
    obtain ⟨x, hx, hxe⟩ := List.mem_map.mp he
    by_cases hkey : (x.1 == roomId) = true
    · rw [if_pos hkey] at hxe
      subst hxe
      simp
    · rw [if_neg hkey] at hxe
      subst hxe
      exact h x hx
  · rw [if_neg hr] at he
    rcases List.mem_append.mp he with hin | hnew
    · exact h e hin
    · rw [List.mem_singleton.mp hnew]
      simp

/-- Every subscriber list stored by `disconnect` is nonempty, provided this
was already true before the call: an entry emptied by the removal is deleted
rather than stored. -/
theorem disconnect_values_nonempty {reg : Registry} (roomId : String) (ws : Conn)
    (h : ∀ e ∈ reg, e.2 ≠ []) :
    ∀ e ∈ ConnectionManager.disconnect reg roomId ws, e.2 ≠ [] := by
  intro e he
  unfold ConnectionManager.disconnect at he
  cases hf : reg.find? (fun e => e.1 == roomId) with
  | none =>
    rw [hf] at he
    exact h e he
  | some e0 =>
    by_cases hemp : (e0.2.erase ws).isEmpty = true
    · simp only [hf, hemp, if_true] at he
      exact h e (List.mem_of_mem_filter he)
    · simp only [hf, hemp, if_false, Bool.false_eq_true] at he
      obtain ⟨x, hx, hxe⟩ := List.mem_map.mp he
      by_cases hkey : (x.1 == roomId) = true
      · rw [if_pos hkey] at hxe
        subst hxe
        simpa [List.isEmpty_iff] using hemp
      · rw [if_neg hkey] at hxe
        subst hxe
        exact h x hx

/-- C7: in every registry state reachable from the empty dictionary by
`connect` and `disconnect`, every room entry holds a nonempty subscriber
list (no empty-list entries leak). -/
theorem registry_nonempty_invariant (reg : Registry)
    (h : ConnectionManager.Reachable reg) :
    ∀ e ∈ reg, e.2 ≠ [] := by
  induction h with
  | empty => intro e he; cases he
  | step_connect _ ih => exact connect_values_nonempty _ _ ih
  | step_disconnect _ ih => exact disconnect_values_nonempty _ _ ih

/-- C7 witness: the invariant instantiated on the concrete reachable state
obtained by one subscription. -/
theorem registry_nonempty_invariant_witness : ([0] : List Conn) ≠ [] :=
  registry_nonempty_invariant (ConnectionManager.connect [] "r1" 0)
    (ConnectionManager.Reachable.step_connect ConnectionManager.Reachable.empty)
    ("r1", [0]) (by decide)

/-! Helper lemmas about association lists with room-id keys, used for the
`disconnect` contract. -/

/-- Keys of the registry dictionary, in insertion order. -/
def regKeys (reg : Registry) : List String :=
  reg.map Prod.fst

theorem find?_congr_pred {α : Type} (p q : α → Bool) (hpq : ∀ x, p x = q x) :
    ∀ l : List α, l.find? p = l.find? q
  | [] => rfl
  | a :: l => by
    rw [List.find?, List.find?, hpq a]
    cases q a with
    | true => rfl
    | false => exact find?_congr_pred p q hpq l

theorem find?_key_map (f : String × List Conn → String × List Conn)
    (hf : ∀ x, (f x).1 = x.1) (roomId : String) :
    ∀ l : Registry,
      (l.map f).find? (fun e => e.1 == roomId) =
        (l.find? (fun e => e.1 == roomId)).map f
  | [] => rfl
  | e :: rest => by
    by_cases hk : (e.1 == roomId) = true
    · simp [List.find?, hf e, hk]
    · have hk' : (e.1 == roomId) = false := by simpa using hk
      simp [List.find?, hf e, hk']
      exact congrArg (Option.map f)
        (find?_congr_pred _ _ (fun x => by simp [Function.comp, hf x]) rest)

theorem eq_of_regKeys_nodup {reg : Registry} (hk : (regKeys reg).Nodup)
    {a b : String × List Conn} (ha : a ∈ reg) (hb : b ∈ reg) (hab : a.1 = b.1) :
    a = b := by
  induction reg with
  | nil => cases ha
  | cons e rest ih =>
    rw [regKeys, List.map_cons, List.nodup_cons] at hk
    rcases List.mem_cons.mp ha with ha' | ha' <;>
      rcases List.mem_cons.mp hb with hb' | hb'
    · rw [ha', hb']
    · exact absurd (by rw [← ha', hab]; exact List.mem_map_of_mem Prod.fst hb') hk.1
    · exact absurd (by rw [← hb', ← hab]; exact List.mem_map_of_mem Prod.fst ha') hk.1
    · exact ih hk.2 ha' hb'

theorem roomConns_of_find? {reg : Registry} {roomId : String}
    {e : String × List Conn} (hf : reg.find? (fun e => e.1 == roomId) = some e) :
    ConnectionManager.roomConns reg roomId = e.2 := by
  simp [ConnectionManager.roomConns, hf]

theorem roomConns_of_find?_none {reg : Registry} {roomId : String}
    (hf : reg.find? (fun e => e.1 == roomId) = none) :
    ConnectionManager.roomConns reg roomId = [] := by
  simp [ConnectionManager.roomConns, hf]

/-- Writing the (unchanged) subscriber list back into the unique entry of the
room leaves the dictionary unchanged. -/
theorem map_writeback_eq {reg : Registry} {roomId : String}
    {e0 : String × List Conn} (hk : (regKeys reg).Nodup)
    (hf : reg.find? (fun e => e.1 == roomId) = some e0) :
    reg.map (fun e => if e.1 == roomId then (e.1, e0.2) else e) = reg := by
  have he0 : e0 ∈ reg := List.mem_of_find?_eq_some hf
  have he0k : e0.1 = roomId := by
    have := List.find?_some hf
    simpa using this
  have hpt : ∀ x ∈ reg, (if x.1 == roomId then (x.1, e0.2) else x) = x := by
    intro x hx
    by_cases hxk : (x.1 == roomId) = true
    · rw [if_pos hxk]
      have hx0 : x = e0 := eq_of_regKeys_nodup hk hx he0 ((eq_of_beq hxk).trans he0k.symm)
      rw [hx0]
    · rw [if_neg hxk]
  have h2 : reg.map (fun e => if e.1 == roomId then (e.1, e0.2) else e) = reg.map id :=
    List.map_congr_left (fun x hx => hpt x hx)
  rw [h2, List.map_id]

/-- `disconnect` preserves distinctness of the dictionary keys. -/
theorem disconnect_keys_nodup {reg : Registry} (roomId : String) (ws : Conn)
    (hk : (regKeys reg).Nodup) :
    (regKeys (ConnectionManager.disconnect reg roomId ws)).Nodup := by
  unfold ConnectionManager.disconnect
  cases hf : reg.find? (fun e => e.1 == roomId) with
  | none => exact hk
  | some e0 =>
    by_cases hemp : (e0.2.erase ws).isEmpty = true
    · simp only [hemp, if_true]
      exact ((List.filter_sublist reg).map Prod.fst).nodup hk
    · simp only [hemp, if_false, Bool.false_eq_true]
      have : regKeys (reg.map (fun e =>
          if e.1 == roomId then (e.1, e0.2.erase ws) else e)) = regKeys reg := by
        rw [regKeys, regKeys, List.map_map]
        refine List.map_congr_left ?_
        intro x _
        by_cases hxk : (x.1 == roomId) = true
        · simp [Function.comp, hxk]
        · simp [Function.comp, hxk]
      rw [this]
      exact hk

/-- `connect` preserves distinctness of the dictionary keys. -/
theorem connect_keys_nodup {reg : Registry} (roomId : String) (ws : Conn)
    (hk : (regKeys reg).Nodup) :
    (regKeys (ConnectionManager.connect reg roomId ws)).Nodup := by
  unfold ConnectionManager.connect
  by_cases hr : ConnectionManager.hasRoom reg roomId = true
  · simp only [hr, if_true]
    have : regKeys (reg.map (fun e =>
        if e.1 == roomId then (e.1, e.2 ++ [ws]) else e)) = regKeys reg := by
      rw [regKeys, regKeys, List.map_map]
      refine List.map_congr_left ?_
      intro x _
      by_cases hxk : (x.1 == roomId) = true
      · simp [Function.comp, hxk]
      · simp [Function.comp, hxk]
    rw [this]
    exact hk
  · simp only [hr, if_false, Bool.false_eq_true]
    rw [regKeys, List.map_append, List.nodup_append]
    refine ⟨hk, List.nodup_singleton _, ?_⟩
    intro a ha hb
    rw [List.map_singleton, List.mem_singleton] at hb
    subst hb
    obtain ⟨x, hx, hxk⟩ := List.mem_map.mp ha
    exact hr (List.any_eq_true.mpr ⟨x, hx, by simp [hxk]⟩)

/-- After `disconnect`, the room's stored list is the old list with the first
occurrence of the websocket removed (and the empty-entry deletion does not
change what `get(room_id, [])` observes). -/
theorem roomConns_disconnect (reg : Registry) (roomId : String) (ws : Conn) :
    ConnectionManager.roomConns (ConnectionManager.disconnect reg roomId ws) roomId =
      (ConnectionManager.roomConns reg roomId).erase ws := by
  cases hf : reg.find? (fun e => e.1 == roomId) with
  | none =>
    have hd : ConnectionManager.disconnect reg roomId ws = reg := by
      simp only [ConnectionManager.disconnect, hf]
    rw [hd, roomConns_of_find?_none hf]
    rfl
  | some e0 =>
    by_cases hemp : (e0.2.erase ws).isEmpty = true
    · have hd : ConnectionManager.disconnect reg roomId ws =
          reg.filter (fun e => e.1 != roomId) := by
        simp only [ConnectionManager.disconnect, hf, hemp, if_true]
      have hnone : (reg.filter (fun e => e.1 != roomId)).find?
          (fun e => e.1 == roomId) = none := by
        refine List.find?_eq_none.mpr ?_
        intro x hx
        have hx2 := (List.mem_filter.mp hx).2
        simp only [bne_iff_ne, ne_eq] at hx2
        simp [hx2]
      rw [hd, roomConns_of_find?_none hnone, roomConns_of_find? hf]
      exact (List.isEmpty_iff.mp hemp).symm
    · have hfp : ∀ x : String × List Conn,
          (if x.1 == roomId then (x.1, e0.2.erase ws) else x).1 = x.1 := by
        intro x
        by_cases hxk : (x.1 == roomId) = true
        · rw [if_pos hxk]
        · rw [if_neg hxk]
      have hd : ConnectionManager.disconnect reg roomId ws =
          reg.map (fun e => if e.1 == roomId then (e.1, e0.2.erase ws) else e) := by
        simp only [ConnectionManager.disconnect, hf, hemp, if_false, Bool.false_eq_true]
      have he0k : (e0.1 == roomId) = true := by
        have := List.find?_some hf
        simpa using this
      rw [hd]
      simp only [ConnectionManager.roomConns, find?_key_map _ hfp roomId reg, hf]
      simp [eq_of_beq he0k]

/-- If removing the websocket empties the room's list, `disconnect` deletes
the room's entry from the dictionary altogether. -/
theorem disconnect_entry_removed (reg : Registry) (roomId : String) (ws : Conn)
    (h : (ConnectionManager.roomConns reg roomId).erase ws = []) :
    ∀ e ∈ ConnectionManager.disconnect reg roomId ws, e.1 ≠ roomId := by
  intro e he
  cases hf : reg.find? (fun e => e.1 == roomId) with
  | none =>
    have hd : ConnectionManager.disconnect reg roomId ws = reg := by
      simp only [ConnectionManager.disconnect, hf]
    rw [hd] at he
    have := List.find?_eq_none.mp hf e he
    simpa using this
  | some e0 =>
    have hemp : (e0.2.erase ws).isEmpty = true := by
      rw [roomConns_of_find? hf] at h
      rw [List.isEmpty_iff]
      exact h
    have hd : ConnectionManager.disconnect reg roomId ws =
        reg.filter (fun e => e.1 != roomId) := by
      simp only [ConnectionManager.disconnect, hf, hemp, if_true]
    rw [hd] at he
    have := (List.mem_filter.mp he).2
    simpa using this

/-- Unsubscribing a websocket that is not present (including from a room with
no entry) leaves a well-formed registry unchanged. -/
theorem disconnect_no_op (reg : Registry) (roomId : String) (ws : Conn)
    (hk : (regKeys reg).Nodup) (hv : ∀ e ∈ reg, e.2 ≠ [])
    (hws : ws ∉ ConnectionManager.roomConns reg roomId) :
    ConnectionManager.disconnect reg roomId ws = reg := by
  cases hf : reg.find? (fun e => e.1 == roomId) with
  | none => simp only [ConnectionManager.disconnect, hf]
  | some e0 =>
    have hcon : ConnectionManager.roomConns reg roomId = e0.2 := roomConns_of_find? hf
    have hwse : ws ∉ e0.2 := by
      rw [← hcon]
      exact hws
    have her : e0.2.erase ws = e0.2 := List.erase_of_not_mem hwse
    have hne : e0.2 ≠ [] := hv e0 (List.mem_of_find?_eq_some hf)
    have hemp : (e0.2.erase ws).isEmpty = false := by
      rw [her]
      simpa [List.isEmpty_iff] using hne
    simp only [ConnectionManager.disconnect, hf, hemp, if_false, Bool.false_eq_true]
    rw [her]
    exact map_writeback_eq hk hf

/-- On a well-formed registry in which the websocket is subscribed at most
once to the room, a second `disconnect` is a no-op. -/
theorem disconnect_idem (reg : Registry) (roomId : String) (ws : Conn)
    (hk : (regKeys reg).Nodup) (hv : ∀ e ∈ reg, e.2 ≠ [])
    (hc : (ConnectionManager.roomConns reg roomId).count ws ≤ 1) :
    ConnectionManager.disconnect (ConnectionManager.disconnect reg roomId ws) roomId ws =
      ConnectionManager.disconnect reg roomId ws := by
  apply disconnect_no_op
  · exact disconnect_keys_nodup roomId ws hk
  · exact disconnect_values_nonempty roomId ws hv
  · rw [roomConns_disconnect]
    intro hmem
    have h0 : ((ConnectionManager.roomConns reg roomId).erase ws).count ws = 0 := by
      rw [List.count_erase_self]
      omega
    exact List.count_eq_zero.mp h0 hmem

/-- C6 counterexample: after subscribing connection `0` to room `"r1"` twice
(both calls go through the code's own `connect`), one `disconnect` does not
remove the handle from the room's subscriber collection — `0` is still
subscribed — and a repeated `disconnect` of the same handle changes the
registry again, so `disconnect` is not idempotent there. -/
theorem disconnect_duplicate_cex :
    0 ∈ ConnectionManager.roomConns
      (ConnectionManager.disconnect
        (ConnectionManager.connect (ConnectionManager.connect [] "r1" 0) "r1" 0) "r1" 0) "r1" ∧
    ConnectionManager.disconnect
        (ConnectionManager.disconnect
          (ConnectionManager.connect (ConnectionManager.connect [] "r1" 0) "r1" 0) "r1" 0) "r1" 0 ≠
      ConnectionManager.disconnect
        (ConnectionManager.connect (ConnectionManager.connect [] "r1" 0) "r1" 0) "r1" 0 := by
  decide

/-- C6 (amended): on a registry whose entries are well formed (distinct room
keys, nonempty lists — the shape every Python `dict` state of this manager
has) and in which the handle occurs at most once in the room's list (the
situation for distinct live connections), `disconnect` removes the (first
occurrence of the) handle from the room's subscriber list; if the resulting
list is empty the room's entry is removed from the dictionary entirely;
unsubscribing a handle not present (or from a room with no entry) is a no-op
raising no error; and repeated `disconnect` of the same handle is idempotent.
Without the at-most-once condition only the first-occurrence removal holds
(see the counterexample). -/
theorem disconnect_spec (reg : Registry) (roomId : String) (ws : Conn)
    (hk : (regKeys reg).Nodup) (hv : ∀ e ∈ reg, e.2 ≠ [])
    (hc : (ConnectionManager.roomConns reg roomId).count ws ≤ 1) :
    ConnectionManager.roomConns (ConnectionManager.disconnect reg roomId ws) roomId =
        (ConnectionManager.roomConns reg roomId).erase ws ∧
    ((ConnectionManager.roomConns reg roomId).erase ws = [] →
      ∀ e ∈ ConnectionManager.disconnect reg roomId ws, e.1 ≠ roomId) ∧
    (ws ∉ ConnectionManager.roomConns reg roomId →
      ConnectionManager.disconnect reg roomId ws = reg) ∧
    ConnectionManager.disconnect (ConnectionManager.disconnect reg roomId ws) roomId ws =
      ConnectionManager.disconnect reg roomId ws :=
  ⟨roomConns_disconnect reg roomId ws,
   disconnect_entry_removed reg roomId ws,
   disconnect_no_op reg roomId ws hk hv,
   disconnect_idem reg roomId ws hk hv hc⟩

/-- C6 witness: the `disconnect` contract instantiated on the concrete
well-formed registry `[("r1", [0, 1])]`. -/
theorem disconnect_spec_witness :
    ConnectionManager.roomConns (ConnectionManager.disconnect [("r1", [0, 1])] "r1" 0) "r1" =
        (ConnectionManager.roomConns [("r1", [0, 1])] "r1").erase 0 ∧
    ((ConnectionManager.roomConns [("r1", [0, 1])] "r1").erase 0 = [] →
      ∀ e ∈ ConnectionManager.disconnect [("r1", [0, 1])] "r1" 0, e.1 ≠ "r1") ∧
    (0 ∉ ConnectionManager.roomConns [("r1", [0, 1])] "r1" →
      ConnectionManager.disconnect [("r1", [0, 1])] "r1" 0 = [("r1", [0, 1])]) ∧
    ConnectionManager.disconnect (ConnectionManager.disconnect [("r1", [0, 1])] "r1" 0) "r1" 0 =
      ConnectionManager.disconnect [("r1", [0, 1])] "r1" 0 :=
  disconnect_spec [("r1", [0, 1])] "r1" 0 (by decide) (by decide) (by decide)

/-- C1 counterexample: connection `0`, subscribed to `"r1"` twice through the
code's own `connect`, is present in the snapshot taken by
`broadcast_to_room` and receives two delivery attempts of the payload in a
single publish, not exactly one. -/
theorem broadcast_duplicate_cex :
    0 ∈ ConnectionManager.subscribersSnapshot
      (ConnectionManager.connect (ConnectionManager.connect [] "r1" 0) "r1" 0) "r1" ∧
    ((ConnectionManager.broadcast_to_room
        (ConnectionManager.connect (ConnectionManager.connect [] "r1" 0) "r1" 0) "r1" (7 : Nat)
        (fun _ => false)).filter (fun a => a.1 == 0)).length = 2 := by
  decide

/-- C1 (amended): one `broadcast_to_room` call issues exactly one delivery
attempt of the payload per occurrence of a connection in the snapshot of the
room's subscriber list taken at the start of the call — the attempts made
(targets and payloads) are a function of the snapshot alone, so no
connection's delivery failure prevents or alters any other attempt — and
whenever the snapshot lists each connection once (as it does for distinct
live connections), every connection in the snapshot receives exactly one
attempt, whose outcome depends only on that connection's own transport. -/
theorem broadcast_attempts_spec {α : Type} [DecidableEq α] (reg : Registry) (roomId : String)
    (m : α) (fails : Conn → Bool) :
    (ConnectionManager.broadcast_to_room reg roomId m fails).map (fun a => (a.1, a.2.1)) =
        (ConnectionManager.subscribersSnapshot reg roomId).map (fun ws => (ws, m)) ∧
    (∀ ws : Conn, ((ConnectionManager.broadcast_to_room reg roomId m fails).filter
        (fun a => a.1 == ws)).length =
      (ConnectionManager.subscribersSnapshot reg roomId).count ws) ∧
    ((ConnectionManager.subscribersSnapshot reg roomId).Nodup →
      ∀ ws ∈ ConnectionManager.subscribersSnapshot reg roomId,
        (ConnectionManager.broadcast_to_room reg roomId m fails).filter (fun a => a.1 == ws) =
          [(ws, m, !fails ws)]) := by
  refine ⟨?_, ?_, ?_⟩
  · simp [ConnectionManager.broadcast_to_room, List.map_map, Function.comp]
  · intro ws
    rw [ConnectionManager.broadcast_to_room, List.filter_map, List.length_map,
      ← List.countP_eq_length_filter]
    rfl
  · intro hnd ws hws
    have hcount : (ConnectionManager.subscribersSnapshot reg roomId).count ws = 1 :=
      List.count_eq_one_of_mem hnd hws
    rw [ConnectionManager.broadcast_to_room, List.filter_map]
    have hp : ((fun (a : Conn × α × Bool) => a.1 == ws) ∘ (fun w => (w, m, !fails w))) =
        (fun w => w == ws) := rfl
    rw [hp, List.filter_beq, hcount]
    rfl

/-- C1 witness: on the two-subscriber registry `[("r1", [0, 1])]` with a
duplicate-free snapshot, connection `0` gets exactly the one successful
attempt of payload `7` even though delivery to connection `1` fails. -/
theorem broadcast_attempts_spec_witness :
    (ConnectionManager.broadcast_to_room [("r1", [0, 1])] "r1" (7 : Nat)
        (fun ws => ws == 1)).filter (fun a => a.1 == 0) = [(0, 7, true)] :=
  (broadcast_attempts_spec [("r1", [0, 1])] "r1" 7 (fun ws => ws == 1)).2.2
    (by decide) 0 (by decide)

/-! Concrete sample data used to instantiate the `send_message` theorems. -/

/-- A direct chatroom document whose ObjectId value is `1`
(rendered `"000000000000000000000001"`). -/
def sampleRoom : RoomDoc :=
  ⟨1, none, "direct", ["a", "b"], [], 0, 0⟩

/-- A server state holding `sampleRoom` and one connection subscribed to it. -/
def sampleState : AppState :=
  ⟨[sampleRoom], [], [("000000000000000000000001", [0])], 5, 10⟩

/-- A well-formed send request addressed to `sampleRoom`. -/
def sampleReq : SendMessageRequest :=
  ⟨"000000000000000000000001", "a", "hi"⟩

/-- C2 counterexample: the string `"bad"` references no existing chatroom
document (the chatroom collection is empty), yet `send_message` rejects it
with the `oid` helper's HTTP 400 "Invalid id" (`InvalidRequest`), not with
the HTTP 404 "Room not found" (`NotFound`) the claim requires. -/
theorem sendMessage_malformed_id_cex :
    (⟨[], [], [], 0, 0⟩ : AppState).chatrooms = [] ∧
    send_message ⟨[], [], [], 0, 0⟩ ⟨"bad", "u1", "hi"⟩ false false (fun _ => false) =
      (.error ⟨400, "Invalid id"⟩, ⟨[], [], [], 0, 0⟩, []) ∧
    (⟨400, "Invalid id"⟩ : HTTPError) ≠ ⟨404, "Room not found"⟩ := by
  decide

/-- C2 (amended): `send_message` on a `room_id` that does not reference an
existing chatroom aborts before any effect — the state is returned unchanged
(no message document created, chatroom collection untouched) and the event
trace is empty (no delivery attempt) — failing with `NotFound` (404) when the
id is a well-formed ObjectId matching no chatroom, and with `InvalidRequest`
(400, from `oid`) when the id string is malformed. -/
theorem sendMessage_unknown_room (st : AppState) (p : SendMessageRequest)
    (iF uF : Bool) (fails : Conn → Bool) :
    (oidOfString p.room_id = none →
      send_message st p iF uF fails = (.error ⟨400, "Invalid id"⟩, st, [])) ∧
    (∀ rid : Nat, oidOfString p.room_id = some rid →
      st.chatrooms.find? (fun r => r._id == rid) = none →
      send_message st p iF uF fails = (.error ⟨404, "Room not found"⟩, st, [])) := by
  constructor
  · intro h
    simp only [send_message, h]
  · intro rid h hn
    simp only [send_message, h, hn]

/-- C2 witness: a well-formed ObjectId string matching no chatroom is
rejected with 404 and the empty state comes back unchanged with no events. -/
theorem sendMessage_unknown_room_witness :
    send_message ⟨[], [], [], 0, 0⟩ ⟨"000000000000000000000002", "u1", "hi"⟩ false false
        (fun _ => false) =
      (.error ⟨404, "Room not found"⟩, ⟨[], [], [], 0, 0⟩, []) :=
  (sendMessage_unknown_room ⟨[], [], [], 0, 0⟩ ⟨"000000000000000000000002", "u1", "hi"⟩
      false false (fun _ => false)).2 2 (by decide) (by decide)

/-- C3: in every execution of `send_message`, if fan-out was entered at all
then the message insert had already succeeded — the `fanout` event is
preceded in the trace by a `persisted` event, the call returns that message
id, and the message document is present in the resulting state — and if the
insert fails no fan-out happens. -/
theorem fanout_only_after_persist (st : AppState) (p : SendMessageRequest)
    (iF uF : Bool) (fails : Conn → Bool) (r : String) :
    (Event.fanout r ∈ (send_message st p iF uF fails).2.2 →
      ∃ mid pre suf,
        (send_message st p iF uF fails).2.2 = pre ++ Event.fanout r :: suf ∧
        Event.persisted mid ∈ pre ∧
        (send_message st p iF uF fails).1 = .ok mid ∧
        ∃ msg ∈ (send_message st p iF uF fails).2.1.messages,
          stringOfOid msg._id = mid) ∧
    (iF = true → Event.fanout r ∉ (send_message st p iF uF fails).2.2) := by
  cases ho : oidOfString p.room_id with
  | none => simp [send_message, ho]
  | some rid =>
    cases hr : st.chatrooms.find? (fun x => x._id == rid) with
    | none => simp [send_message, ho, hr]
    | some room =>
      cases iF with
      | true => simp [send_message, ho, hr]
      | false =>
        cases uF with
        | true => simp [send_message, ho, hr]
        | false =>
          simp only [send_message, ho, hr, Bool.false_eq_true, if_false]
          constructor
          · intro hmem
            have hreq : r = p.room_id := by
              simp at hmem
              exact hmem
            subst hreq
            refine ⟨stringOfOid st.nextId,
              [.persisted (stringOfOid st.nextId), .roomTouched], _, rfl, ?_, rfl, ?_⟩
            · simp
            · refine ⟨⟨st.nextId, p.room_id, p.sender_id, p.content, "text",
                st.clock, st.clock⟩, ?_, rfl⟩
              simp [createMessageDoc, updateChatroomStamp]
          · intro h
            cases h

/-- C3 witness: with the message insert failing on the sample state, no
fan-out event is emitted. -/
theorem fanout_only_after_persist_witness :
    Event.fanout "000000000000000000000001" ∉
      (send_message sampleState sampleReq true false (fun _ => false)).2.2 :=
  (fanout_only_after_persist sampleState sampleReq true false (fun _ => false)
      "000000000000000000000001").2 rfl

/-- Forgets the transport outcome of a delivery attempt, keeping the attempt
itself (target and payload). -/
def eraseOutcome : Event → Event
  | .attempt ws data _ => .attempt ws data true
  | e => e

/-- C9 counterexample: on the sample state, delivery of the broadcast to the
sole subscriber (connection `0`) fails, the failure is swallowed — yet the
failed connection is not pruned: it is still among the room's subscribers in
the state `send_message` leaves behind. -/
theorem failed_delivery_not_pruned_cex :
    Event.attempt 0 ⟨"message", stringOfOid 5, "000000000000000000000001", "a", "hi"⟩ false ∈
      (send_message sampleState sampleReq false false (fun _ => true)).2.2 ∧
    0 ∈ ConnectionManager.roomConns
      (send_message sampleState sampleReq false false (fun _ => true)).2.1.registry
      "000000000000000000000001" := by
  decide

/-- C9 (amended): delivery failures are swallowed and never propagated — the
HTTP outcome, the resulting server state, and the set of delivery attempts
made by `send_message` are all independent of which connections' transports
fail, so a failing subscriber cannot make a send raise or lose other
deliveries — but the delivery path performs no pruning: the registry
`send_message` leaves behind is exactly the registry it started from, the
failed connection included (it is removed only when its own read loop
observes the disconnect and calls `disconnect`). -/
theorem delivery_failure_isolated (st : AppState) (p : SendMessageRequest)
    (iF uF : Bool) (fails fails' : Conn → Bool) :
    (send_message st p iF uF fails).1 = (send_message st p iF uF fails').1 ∧
    (send_message st p iF uF fails).2.1 = (send_message st p iF uF fails').2.1 ∧
    (send_message st p iF uF fails).2.1.registry = st.registry ∧
    (send_message st p iF uF fails).2.2.map eraseOutcome =
      (send_message st p iF uF fails').2.2.map eraseOutcome := by
  cases ho : oidOfString p.room_id with
  | none => simp [send_message, ho]
  | some rid =>
    cases hr : st.chatrooms.find? (fun x => x._id == rid) with
    | none => simp [send_message, ho, hr]
    | some room =>
      cases iF with
      | true => simp [send_message, ho, hr]
      | false =>
        cases uF with
        | true => simp [send_message, ho, hr, createMessageDoc]
        | false =>
          simp [send_message, ho, hr, updateChatroomStamp, createMessageDoc,
            ConnectionManager.broadcast_to_room, List.map_map, Function.comp,
            eraseOutcome]

/-- Equality of chatroom documents up to the `updated_at` stamp. -/
def sameExceptUpdatedAt (r r' : RoomDoc) : Prop :=
  r'._id = r._id ∧ r'.name = r.name ∧ r'.type = r.type ∧
    r'.members = r.members ∧ r'.admins = r.admins ∧ r'.created_at = r.created_at

theorem sameExceptUpdatedAt_refl (r : RoomDoc) : sameExceptUpdatedAt r r :=
  ⟨rfl, rfl, rfl, rfl, rfl, rfl⟩

theorem forall₂_sameExceptUpdatedAt_refl :
    ∀ l : List RoomDoc, List.Forall₂ sameExceptUpdatedAt l l
  | [] => List.Forall₂.nil
  | r :: rs => List.Forall₂.cons (sameExceptUpdatedAt_refl r) (forall₂_sameExceptUpdatedAt_refl rs)

/-- The `updated_at`-only patch relates the old and new chatroom collections
position by position: same length, all other fields unchanged. -/
theorem touchChatroomFirst_forall₂ (l : List RoomDoc) (rid t : Nat) :
    List.Forall₂ sameExceptUpdatedAt l (touchChatroomFirst l rid t) := by
  induction l with
  | nil => exact List.Forall₂.nil
  | cons r rs ih =>
    by_cases h : (r._id == rid) = true
    · simp only [touchChatroomFirst, h, if_true]
      exact List.Forall₂.cons ⟨rfl, rfl, rfl, rfl, rfl, rfl⟩
        (forall₂_sameExceptUpdatedAt_refl rs)
    · simp only [touchChatroomFirst, h, if_false, Bool.false_eq_true]
      exact List.Forall₂.cons (sameExceptUpdatedAt_refl r) ih

/-- C10: a successful `send_message` touches only the addressed room
document's `updated_at` stamp — position by position, every document of the
chatroom collection keeps its `_id`, `name`, `type`, `members`, `admins` and
`created_at` (the patch passed to `update_document` is empty, so only the
update timestamp is set), and the collection keeps its length. -/
theorem sendMessage_room_frame (st : AppState) (p : SendMessageRequest) (rid : Nat)
    (room : RoomDoc) (fails : Conn → Bool)
    (hv : oidOfString p.room_id = some rid)
    (hr : st.chatrooms.find? (fun x => x._id == rid) = some room) :
    ∃ mid, (send_message st p false false fails).1 = .ok mid ∧
      List.Forall₂ sameExceptUpdatedAt st.chatrooms
        (send_message st p false false fails).2.1.chatrooms := by
  simp only [send_message, hv, hr, Bool.false_eq_true, if_false, createMessageDoc,
    updateChatroomStamp]
  exact ⟨stringOfOid st.nextId, rfl, touchChatroomFirst_forall₂ st.chatrooms rid _⟩

/-- C10 witness: the frame property instantiated on the sample state. -/
theorem sendMessage_room_frame_witness :
    ∃ mid, (send_message sampleState sampleReq false false (fun _ => false)).1 = .ok mid ∧
      List.Forall₂ sameExceptUpdatedAt sampleState.chatrooms
        (send_message sampleState sampleReq false false (fun _ => false)).2.1.chatrooms :=
  sendMessage_room_frame sampleState sampleReq 1 sampleRoom (fun _ => false)
    (by decide) (by decide)

/-- The Mongo `$all` membership filter is symmetric in the two listed ids. -/
theorem directRoomMatch_symm (A B : String) (r : RoomDoc) :
    directRoomMatch A B r = directRoomMatch B A r := by
  simp [directRoomMatch, Bool.and_comm]

/-- C4: for distinct users, two consecutive `create_direct_chat` calls — in
the same or in swapped member order — return the same room id, and the
second call creates nothing: it finds the direct room containing both
members and leaves the state unchanged. -/
theorem create_direct_chat_idempotent (st : AppState) (A B : String) (h : A ≠ B) :
    ∃ id st1,
      create_direct_chat st A B = .ok (id, st1) ∧
      create_direct_chat st1 B A = .ok (id, st1) ∧
      create_direct_chat st1 A B = .ok (id, st1) := by
  have hAB : (A == B) = false := beq_eq_false_iff_ne.mpr h
  have hBA : (B == A) = false := beq_eq_false_iff_ne.mpr (Ne.symm h)
  cases hf : st.chatrooms.find? (directRoomMatch A B) with
  | some x =>
    have hf' : st.chatrooms.find? (directRoomMatch B A) = some x := by
      rw [find?_congr_pred (directRoomMatch B A) (directRoomMatch A B)
        (fun r => directRoomMatch_symm B A r) st.chatrooms]
      exact hf
    refine ⟨stringOfOid x._id, st, ?_, ?_, ?_⟩
    · simp only [create_direct_chat, hAB, Bool.false_eq_true, if_false, hf]
    · simp only [create_direct_chat, hBA, Bool.false_eq_true, if_false, hf']
    · simp only [create_direct_chat, hAB, Bool.false_eq_true, if_false, hf]
  | none =>
    have hnone' : st.chatrooms.find? (directRoomMatch B A) = none := by
      rw [find?_congr_pred (directRoomMatch B A) (directRoomMatch A B)
        (fun r => directRoomMatch_symm B A r) st.chatrooms]
      exact hf
    have hmAB : directRoomMatch A B
        ⟨st.nextId, none, "direct", [A, B], [], st.clock, st.clock⟩ = true := by
      simp [directRoomMatch]
    have hmBA : directRoomMatch B A
        ⟨st.nextId, none, "direct", [A, B], [], st.clock, st.clock⟩ = true := by
      simp [directRoomMatch]
    refine ⟨stringOfOid st.nextId,
      { st with
        chatrooms := st.chatrooms ++
          [⟨st.nextId, none, "direct", [A, B], [], st.clock, st.clock⟩]
        nextId := st.nextId + 1
        clock := st.clock + 1 }, ?_, ?_, ?_⟩
    · simp only [create_direct_chat, hAB, Bool.false_eq_true, if_false, hf]
    · have hfind : (st.chatrooms ++
          [(⟨st.nextId, none, "direct", [A, B], [], st.clock, st.clock⟩ : RoomDoc)]).find?
            (directRoomMatch B A) =
          some ⟨st.nextId, none, "direct", [A, B], [], st.clock, st.clock⟩ := by
        rw [List.find?_append, hnone']
        simp [List.find?, hmBA]
      simp only [create_direct_chat, hBA, Bool.false_eq_true, if_false, hfind]
    · have hfind : (st.chatrooms ++
          [(⟨st.nextId, none, "direct", [A, B], [], st.clock, st.clock⟩ : RoomDoc)]).find?
            (directRoomMatch A B) =
          some ⟨st.nextId, none, "direct", [A, B], [], st.clock, st.clock⟩ := by
        rw [List.find?_append, hf]
        simp [List.find?, hmAB]
      simp only [create_direct_chat, hAB, Bool.false_eq_true, if_false, hfind]

/-- C4 witness: the direct-room idempotence applied on the empty state to the
distinct users `"a"` and `"b"`. -/
theorem create_direct_chat_idempotent_witness :
    ∃ id st1,
      create_direct_chat ⟨[], [], [], 0, 0⟩ "a" "b" = .ok (id, st1) ∧
      create_direct_chat st1 "b" "a" = .ok (id, st1) ∧
      create_direct_chat st1 "a" "b" = .ok (id, st1) :=
  create_direct_chat_idempotent ⟨[], [], [], 0, 0⟩ "a" "b" (by decide)

/-- C8 counterexample: with requested `limit = 0` (a legal value of the
`limit: int` query parameter), PyMongo's `Cursor.limit(0)` disables the cap,
so `get_messages` returns the room's message even though the claim demands
at most `limit = 0` messages. -/
theorem get_messages_limit_zero_cex :
    get_messages [⟨1, "r", "a", "x", "text", 3, 3⟩] "r" 0 =
      [⟨1, "r", "a", "x", "text", 3, 3⟩] ∧
    ¬(get_messages [⟨1, "r", "a", "x", "text", 3, 3⟩] "r" 0).length ≤ 0 := by
  decide

/-- Room membership, ascending order and recency of the sort-take-reverse
pipeline, for an arbitrary prefix length `N`. -/
theorem sortedTakeReverse_spec (msgs : List MsgDoc) (room : String) (N : Nat) :
    (∀ m ∈ ((List.insertionSort moreRecent
        (msgs.filter (fun m => m.room_id == room))).take N).reverse, m.room_id = room) ∧
    (((List.insertionSort moreRecent
        (msgs.filter (fun m => m.room_id == room))).take N).reverse).Pairwise
      (fun a b => a.created_at ≤ b.created_at) ∧
    ∃ rest : List MsgDoc,
      ((((List.insertionSort moreRecent
          (msgs.filter (fun m => m.room_id == room))).take N).reverse).reverse ++
        rest).Perm (msgs.filter (fun m => m.room_id == room)) ∧
      ∀ y ∈ rest, ∀ x ∈ ((List.insertionSort moreRecent
          (msgs.filter (fun m => m.room_id == room))).take N).reverse,
        y.created_at ≤ x.created_at := by
  have hsorted : (List.insertionSort moreRecent
      (msgs.filter (fun m => m.room_id == room))).Pairwise moreRecent :=
    List.sorted_insertionSort moreRecent (msgs.filter (fun m => m.room_id == room))
  have hperm : (List.insertionSort moreRecent
      (msgs.filter (fun m => m.room_id == room))).Perm
        (msgs.filter (fun m => m.room_id == room)) :=
    List.perm_insertionSort moreRecent (msgs.filter (fun m => m.room_id == room))
  refine ⟨?_, ?_, ?_⟩
  · intro m hm
    simp only [List.mem_reverse] at hm
    have hm2 : m ∈ List.insertionSort moreRecent
        (msgs.filter (fun m => m.room_id == room)) :=
      (List.take_sublist _ _).subset hm
    have hm3 : m ∈ msgs.filter (fun m => m.room_id == room) := hperm.subset hm2
    exact eq_of_beq (List.mem_filter.mp hm3).2
  · rw [List.pairwise_reverse]
    exact List.Pairwise.sublist (List.take_sublist _ _) hsorted
  · refine ⟨(List.insertionSort moreRecent
      (msgs.filter (fun m => m.room_id == room))).drop N, ?_, ?_⟩
    · rw [List.reverse_reverse, List.take_append_drop]
      exact hperm
    · intro y hy x hx
      simp only [List.mem_reverse] at hx
      have hsplit : (List.take N (List.insertionSort moreRecent
            (msgs.filter (fun m => m.room_id == room))) ++
          List.drop N (List.insertionSort moreRecent
            (msgs.filter (fun m => m.room_id == room)))).Pairwise moreRecent := by
        rw [List.take_append_drop]
        exact hsorted
      exact (List.pairwise_append.mp hsplit).2.2 x hx y hy

/-- C8 (amended): `get_messages` applies `Cursor.limit(min(limit, 200))` with
PyMongo semantics. For a positive requested `limit` the result holds at most
`limit` and at most 200 messages; for `limit = 0` the cap is disabled and
every message of the room is returned; for a negative `limit` at most
`|limit|` messages are returned (so a request below `-200` can also exceed
the hard maximum). In all cases every returned message belongs to the
requested room, the result is in ascending `created_at` order, and it
consists of the most recent messages of the room — the remaining room
messages (`rest`) all have timestamps no later than every returned one. -/
theorem get_messages_spec (msgs : List MsgDoc) (room : String) (limit : Int) :
    (0 < limit → ((get_messages msgs room limit).length : Int) ≤ limit ∧
      (get_messages msgs room limit).length ≤ 200) ∧
    (limit = 0 → (get_messages msgs room limit).length =
      (msgs.filter (fun m => m.room_id == room)).length) ∧
    (limit < 0 → ((get_messages msgs room limit).length : Int) ≤ -limit) ∧
    (∀ m ∈ get_messages msgs room limit, m.room_id = room) ∧
    (get_messages msgs room limit).Pairwise (fun a b => a.created_at ≤ b.created_at) ∧
    ∃ rest : List MsgDoc,
      ((get_messages msgs room limit).reverse ++ rest).Perm
        (msgs.filter (fun m => m.room_id == room)) ∧
      ∀ y ∈ rest, ∀ x ∈ get_messages msgs room limit, y.created_at ≤ x.created_at := by
  obtain ⟨hmem, hpair, hrest⟩ := sortedTakeReverse_spec msgs room
    (mongoLimitCount (min limit 200)
      (List.insertionSort moreRecent (msgs.filter (fun m => m.room_id == room))).length)
  simp only [get_messages]
  refine ⟨?_, ?_, ?_, hmem, hpair, hrest⟩
  · intro hpos
    have hminpos : 0 < min limit 200 := lt_min hpos (by norm_num)
    have hNA : ((min limit 200).natAbs : Int) = min limit 200 :=
      Int.natAbs_of_nonneg (le_of_lt hminpos)
    have hle1 : min limit 200 ≤ limit := min_le_left _ _
    have hle2 : min limit 200 ≤ (200 : Int) := min_le_right _ _
    have hK : mongoLimitCount (min limit 200) (List.insertionSort moreRecent
        (msgs.filter (fun m => m.room_id == room))).length = (min limit 200).natAbs :=
      if_neg (by omega)
    simp only [List.length_reverse, List.length_take, hK]
    constructor
    · have h1 : min ((min limit 200).natAbs) (List.insertionSort moreRecent
          (msgs.filter (fun m => m.room_id == room))).length ≤ (min limit 200).natAbs :=
        Nat.min_le_left _ _
      omega
    · have h1 : min ((min limit 200).natAbs) (List.insertionSort moreRecent
          (msgs.filter (fun m => m.room_id == room))).length ≤ (min limit 200).natAbs :=
        Nat.min_le_left _ _
      omega
  · intro h0
    subst h0
    have hmin : min (0 : Int) 200 = 0 := min_eq_left (by norm_num)
    simp [hmin, mongoLimitCount, List.length_insertionSort]
  · intro hneg
    have hmin : min limit 200 = limit := min_eq_left (by omega)
    have hK : mongoLimitCount (min limit 200) (List.insertionSort moreRecent
        (msgs.filter (fun m => m.room_id == room))).length = limit.natAbs := by
      rw [hmin]
      exact if_neg (by omega)
    simp only [List.length_reverse, List.length_take, hK]
    have h1 : min (limit.natAbs) (List.insertionSort moreRecent
        (msgs.filter (fun m => m.room_id == room))).length ≤ limit.natAbs :=
      Nat.min_le_left _ _
    omega

/-- C8 witness: the amended `get_messages` contract applied at a concrete
collection holding three messages (two in room `"r"`) with requested
`limit = 1`. -/
theorem get_messages_spec_witness :
    (0 < (1 : Int) → ((get_messages [⟨1, "r", "a", "x", "text", 3, 3⟩,
        ⟨2, "r", "a", "y", "text", 5, 5⟩, ⟨3, "q", "a", "z", "text", 4, 4⟩]
          "r" 1).length : Int) ≤ 1 ∧
      (get_messages [⟨1, "r", "a", "x", "text", 3, 3⟩, ⟨2, "r", "a", "y", "text", 5, 5⟩,
        ⟨3, "q", "a", "z", "text", 4, 4⟩] "r" 1).length ≤ 200) ∧
    ((1 : Int) = 0 → (get_messages [⟨1, "r", "a", "x", "text", 3, 3⟩,
        ⟨2, "r", "a", "y", "text", 5, 5⟩, ⟨3, "q", "a", "z", "text", 4, 4⟩]
          "r" 1).length =
      (List.filter (fun m => m.room_id == "r")
        ([⟨1, "r", "a", "x", "text", 3, 3⟩, ⟨2, "r", "a", "y", "text", 5, 5⟩,
          ⟨3, "q", "a", "z", "text", 4, 4⟩] : List MsgDoc)).length) ∧
    ((1 : Int) < 0 → ((get_messages [⟨1, "r", "a", "x", "text", 3, 3⟩,
        ⟨2, "r", "a", "y", "text", 5, 5⟩, ⟨3, "q", "a", "z", "text", 4, 4⟩]
          "r" 1).length : Int) ≤ -1) ∧
    (∀ m ∈ get_messages [⟨1, "r", "a", "x", "text", 3, 3⟩, ⟨2, "r", "a", "y", "text", 5, 5⟩,
        ⟨3, "q", "a", "z", "text", 4, 4⟩] "r" 1, m.room_id = "r") ∧
    (get_messages [⟨1, "r", "a", "x", "text", 3, 3⟩, ⟨2, "r", "a", "y", "text", 5, 5⟩,
        ⟨3, "q", "a", "z", "text", 4, 4⟩] "r" 1).Pairwise
      (fun a b => a.created_at ≤ b.created_at) ∧
    ∃ rest : List MsgDoc,
      ((get_messages [⟨1, "r", "a", "x", "text", 3, 3⟩, ⟨2, "r", "a", "y", "text", 5, 5⟩,
          ⟨3, "q", "a", "z", "text", 4, 4⟩] "r" 1).reverse ++ rest).Perm
        (List.filter (fun m => m.room_id == "r")
          [⟨1, "r", "a", "x", "text", 3, 3⟩, ⟨2, "r", "a", "y", "text", 5, 5⟩,
            ⟨3, "q", "a", "z", "text", 4, 4⟩]) ∧
      ∀ y ∈ rest, ∀ x ∈ get_messages [⟨1, "r", "a", "x", "text", 3, 3⟩,
          ⟨2, "r", "a", "y", "text", 5, 5⟩, ⟨3, "q", "a", "z", "text", 4, 4⟩] "r" 1,
        y.created_at ≤ x.created_at :=
  get_messages_spec [⟨1, "r", "a", "x", "text", 3, 3⟩, ⟨2, "r", "a", "y", "text", 5, 5⟩,
    ⟨3, "q", "a", "z", "text", 4, 4⟩] "r" 1

end ChatMind
